import Mathlib

/-!
Verification of the session-scoped interactive terminal state machine of the
ssh-kaustubhpatange.com portfolio server (src/main.go).

The core consists of the per-session value `model`, the update function
`model.Update` (the Update Engine), and the renderer `model.View` (the View
Renderer).  Styles (lipgloss handles) are opaque to the core: a style is
embedded as a function from strings to strings, resolved once at session
start by `teaHandler` and carried on the model.

Go `int` fields become `Int`.  Input messages (`tea.Msg`) are embedded as an
inductive `Msg`: a window-size message, a key message carrying the key
string exactly as `msg.String()` yields it, or any other message kind
(`Msg.other`), which the Go type switch falls through.  Side effects are
embedded as an emitted `Cmd` value: the Go code returns `tea.Quit` for
quitting, and performs `browser.OpenURL(url)` directly inside `Update`,
discarding its error; the embedding records that call as the emitted
`Cmd.openURL url` effect of the step, faithful to the fact that the call
is fire-and-forget and its result never reaches the model.
-/

namespace SSHPortfolio

/-- A resolved style handle: renders a string with the style applied.
Opaque to the core (the Style Service is an external collaborator). -/
abbrev Style := String → String

/-- src/main.go line 94: the separator glyph. -/
def dotChar : String := " • "

/-- src/main.go line 96. -/
def RESUME_URL : String :=
  "https://drive.google.com/file/d/1azKao3idMCDqJdCHtCTlvc4U3ABYTtJ7/view?usp=sharing"

/-- src/main.go line 97. -/
def GITHUB_URL : String := "https://github.com/KaustubhPatange"

/-- src/main.go line 98. -/
def LINKEDIN_URL : String := "https://www.linkedin.com/in/kaustubhpatange/"

/-- src/main.go line 99. -/
def TWITTER_URL : String := "https://twitter.com/KP206"

/-- The Session Model, src/main.go lines 103-114. -/
structure model where
  Width : Int
  Height : Int
  Choice : Int
  Chosen : Bool
  mainStyle : Style
  aboutStyle : Style
  aboutNameStyle : Style
  checkboxStyle : Style
  subtleStyle : Style
  dotStyle : String

/-- Input events delivered to the Update Engine.  `windowSize` embeds
`tea.WindowSizeMsg`, `key s` embeds a `tea.KeyMsg` whose `String()` is `s`,
and `other` embeds every other `tea.Msg` kind (no case of the Go type
switch matches it). -/
inductive Msg where
  | windowSize (width height : Int)
  | key (s : String)
  | other
deriving DecidableEq

/-- The side-effect command emitted by one Update step: nothing, terminate
the session (`tea.Quit`), or open an external resource by URL
(`browser.OpenURL`). -/
inductive Cmd where
  | none
  | quit
  | openURL (url : String)
deriving DecidableEq

/-- The Update Engine, src/main.go lines 120-154, translated branch for
branch from the Go switch statements. -/
def model.Update (m : model) (msg : Msg) : model × Cmd :=
  match msg with
  | Msg.windowSize w h => ({ m with Width := w, Height := h }, Cmd.none)
  | Msg.key s =>
    if s = "q" ∨ s = "ctrl+c" then
      (m, Cmd.quit)
    else if s = "j" ∨ s = "down" then
      let c := m.Choice + 1
      ({ m with Choice := if c > 3 then 3 else c }, Cmd.none)
    else if s = "k" ∨ s = "up" then
      let c := m.Choice - 1
      ({ m with Choice := if c < 0 then 0 else c }, Cmd.none)
    else if s = "enter" then
      if m.Choice = 0 then (m, Cmd.openURL RESUME_URL)
      else if m.Choice = 1 then (m, Cmd.openURL GITHUB_URL)
      else if m.Choice = 2 then (m, Cmd.openURL LINKEDIN_URL)
      else if m.Choice = 3 then (m, Cmd.openURL TWITTER_URL)
      else (m, Cmd.none)
    else
      (m, Cmd.none)
  | Msg.other => (m, Cmd.none)

/-- src/main.go lines 116-118: `Init` returns no command. -/
def model.Init (_ : model) : Cmd := Cmd.none

/-- The per-session model initializer, src/main.go lines 66-91
(`teaHandler`): geometry from the PTY, `Choice = 0`, `Chosen = false`,
style handles resolved once from the renderer.  The `dotStyle` field holds
the separator glyph already rendered through its style. -/
def teaHandler (width height : Int)
    (mainStyle aboutStyle aboutNameStyle checkboxStyle subtleStyle
     dotGlyphStyle : Style) : model :=
  { Width := width
    Height := height
    Choice := 0
    Chosen := false
    mainStyle := mainStyle
    aboutStyle := aboutStyle
    aboutNameStyle := aboutNameStyle
    checkboxStyle := checkboxStyle
    subtleStyle := subtleStyle
    dotStyle := dotGlyphStyle dotChar }

/-- src/main.go lines 189-194: one checkbox line. -/
def checkbox (checkboxStyle : Style) (label : String) (checked : Bool) :
    String :=
  if checked then checkboxStyle ("[x] " ++ label)
  else "[ ] " ++ label

/-- src/main.go lines 158-168: the about paragraph.  The Go code formats
the trimmed template with the styled author name and renders the result
through the about style. -/
def aboutBlock (m : model) : String :=
  m.aboutStyle
    ("Hi I\x27m " ++ m.aboutNameStyle "Kaustubh Patange" ++
     ",\n\nA self taught developer specialized in many software domains\nincluding Mobile Apps, Web, Backend, Gen AI.\n\nI\x27m currently working at an AI startup as a FullStack \nEngineer.\n\nI\x27m fluent in Python, Go, Typescript, Javascript, Kotlin.")

/-- src/main.go lines 171-173: the footer legend. -/
def footerBlock (m : model) : String :=
  m.subtleStyle "j/k, up/down: select" ++ m.dotStyle ++
  m.subtleStyle "enter: choose" ++ m.dotStyle ++
  m.subtleStyle "q, ctrl+c: quit"

/-- src/main.go lines 175-181: the four checkbox lines joined by
newlines (`fmt.Sprintf` with format `%s\n%s\n%s\n%s`). -/
def choicesBlock (m : model) : String :=
  checkbox m.checkboxStyle "Resume / CV" (m.Choice == 0) ++ "\n" ++
  checkbox m.checkboxStyle "GitHub" (m.Choice == 1) ++ "\n" ++
  checkbox m.checkboxStyle "Linkedin" (m.Choice == 2) ++ "\n" ++
  checkbox m.checkboxStyle "Twitter" (m.Choice == 3)

/-- The View Renderer, src/main.go lines 156-187. -/
def model.View (m : model) : String :=
  m.mainStyle
    ("\n" ++ aboutBlock m ++ "\n\n" ++ choicesBlock m ++ "\n\n" ++
     footerBlock m ++ "\n\n")

/-- The model reached after feeding a sequence of input events through the
Update Engine (the Program Loop keeps only the model component between
steps). -/
def runModel (m : model) : List Msg → model
  | [] => m
  | msg :: rest => runModel (m.Update msg).1 rest

/-- One Update step keeps `Choice` inside [0, 3] when it starts there. -/
theorem update_choice_bounds (m : model) (msg : Msg)
    (h0 : 0 ≤ m.Choice) (h3 : m.Choice ≤ 3) :
    0 ≤ ((m.Update msg).1).Choice ∧ ((m.Update msg).1).Choice ≤ 3 := by
  cases msg with
  | windowSize w h => simpa [model.Update] using ⟨h0, h3⟩
  | other => simpa [model.Update] using ⟨h0, h3⟩
  | key s =>
    simp only [model.Update]
    split_ifs <;> simp_all <;> omega

/-- Claim C1: for every finite sequence of input events applied by the
Update Engine starting from the initial Session Model (where
`selectedIndex = 0`), the resulting model keeps `Choice` (the selected
index) in the closed range [0, 3]. -/
theorem choice_invariant_from_init (width height : Int)
    (s1 s2 s3 s4 s5 s6 : Style) (msgs : List Msg) :
    0 ≤ (runModel (teaHandler width height s1 s2 s3 s4 s5 s6) msgs).Choice ∧
    (runModel (teaHandler width height s1 s2 s3 s4 s5 s6) msgs).Choice ≤ 3 := by
  have key : ∀ (m : model), 0 ≤ m.Choice → m.Choice ≤ 3 →
      ∀ l : List Msg, 0 ≤ (runModel m l).Choice ∧ (runModel m l).Choice ≤ 3 := by
    intro m hm0 hm3 l
    induction l generalizing m with
    | nil => exact ⟨hm0, hm3⟩
    | cons msg rest ih =>
      obtain ⟨h0, h3⟩ := update_choice_bounds m msg hm0 hm3
      exact ih _ h0 h3
  exact key _ (by simp [teaHandler]) (by simp [teaHandler]) msgs

/-- Claim C2: Navigate-down ("j"/"down") sets `Choice` to
`min (Choice + 1) 3` and Navigate-up ("k"/"up") sets it to
`max (Choice - 1) 0`, for every model; in particular Navigate-down at 3
and Navigate-up at 0 leave the selection unchanged. -/
theorem navigate_min_max (m : model) :
    (((m.Update (Msg.key "j")).1).Choice = min (m.Choice + 1) 3 ∧
     ((m.Update (Msg.key "down")).1).Choice = min (m.Choice + 1) 3 ∧
     ((m.Update (Msg.key "k")).1).Choice = max (m.Choice - 1) 0 ∧
     ((m.Update (Msg.key "up")).1).Choice = max (m.Choice - 1) 0) ∧
    (m.Choice = 3 → ((m.Update (Msg.key "j")).1).Choice = m.Choice ∧
                    ((m.Update (Msg.key "down")).1).Choice = m.Choice) ∧
    (m.Choice = 0 → ((m.Update (Msg.key "k")).1).Choice = m.Choice ∧
                    ((m.Update (Msg.key "up")).1).Choice = m.Choice) := by
  refine ⟨⟨?_, ?_, ?_, ?_⟩, ?_, ?_⟩ <;>
    simp only [model.Update] <;> try intro h
  all_goals simp_all <;> split_ifs <;> omega

/-- A concrete session model with the last menu entry selected, used to
instantiate the navigation claim. -/
def lastEntryModel : model :=
  { Width := 80
    Height := 24
    Choice := 3
    Chosen := false
    mainStyle := id
    aboutStyle := id
    aboutNameStyle := id
    checkboxStyle := id
    subtleStyle := id
    dotStyle := dotChar }

/-- Witness for C2 at the concrete model with `Choice = 3`. -/
theorem navigate_min_max_witness :
    ((((lastEntryModel.Update (Msg.key "j")).1).Choice =
        min (lastEntryModel.Choice + 1) 3 ∧
      ((lastEntryModel.Update (Msg.key "down")).1).Choice =
        min (lastEntryModel.Choice + 1) 3 ∧
      ((lastEntryModel.Update (Msg.key "k")).1).Choice =
        max (lastEntryModel.Choice - 1) 0 ∧
      ((lastEntryModel.Update (Msg.key "up")).1).Choice =
        max (lastEntryModel.Choice - 1) 0) ∧
    (lastEntryModel.Choice = 3 →
      ((lastEntryModel.Update (Msg.key "j")).1).Choice =
        lastEntryModel.Choice ∧
      ((lastEntryModel.Update (Msg.key "down")).1).Choice =
        lastEntryModel.Choice) ∧
    (lastEntryModel.Choice = 0 →
      ((lastEntryModel.Update (Msg.key "k")).1).Choice =
        lastEntryModel.Choice ∧
      ((lastEntryModel.Update (Msg.key "up")).1).Choice =
        lastEntryModel.Choice)) :=
  navigate_min_max lastEntryModel

/-- Claim C4: a Quit event ("q" or "ctrl+c") makes the Update Engine emit
the terminate-session command and return the model unchanged. -/
theorem quit_emits_terminate (m : model) :
    m.Update (Msg.key "q") = (m, Cmd.quit) ∧
    m.Update (Msg.key "ctrl+c") = (m, Cmd.quit) := by
  constructor <;> simp [model.Update]

/-- Claim C5: a Resize event sets `Width` and `Height` to the reported
values, leaves every other field unchanged (the record update touches
only those two fields), and emits no side-effect command. -/
theorem resize_sets_geometry (m : model) (w h : Int) :
    m.Update (Msg.windowSize w h) =
      ({ m with Width := w, Height := h }, Cmd.none) := by
  rfl

/-- The process-wide Menu Entry actions, in entry order (src/main.go
lines 96-99 and the `enter` branch of `Update`, lines 139-151). -/
def menuUrls : List String :=
  [RESUME_URL, GITHUB_URL, LINKEDIN_URL, TWITTER_URL]

/-- Claim C3: an Activate ("enter") event at a selected index in [0, 3]
emits the open-resource command for the URL of the Menu Entry at that
index and returns the model unchanged; in particular at index 2 the
emitted URL is the LinkedIn URL. -/
theorem activate_opens_url (m : model)
    (h0 : 0 ≤ m.Choice) (h3 : m.Choice ≤ 3) :
    m.Update (Msg.key "enter") =
      (m, Cmd.openURL (menuUrls.getD m.Choice.toNat "")) ∧
    (m.Choice = 2 →
      m.Update (Msg.key "enter") = (m, Cmd.openURL LINKEDIN_URL)) := by
  have hc : m.Choice = 0 ∨ m.Choice = 1 ∨ m.Choice = 2 ∨ m.Choice = 3 := by
    omega
  rcases hc with h | h | h | h <;>
    refine ⟨?_, fun h2 => ?_⟩ <;>
    simp [model.Update, menuUrls, h] <;> omega

/-- A concrete session model used to instantiate hypotheses of the claim
theorems: identity style handles, LinkedIn entry selected. -/
def sampleModel : model :=
  { Width := 80
    Height := 24
    Choice := 2
    Chosen := false
    mainStyle := id
    aboutStyle := id
    aboutNameStyle := id
    checkboxStyle := id
    subtleStyle := id
    dotStyle := dotChar }

/-- Witness for C3 at the concrete model with `Choice = 2`. -/
theorem activate_opens_url_witness :
    sampleModel.Update (Msg.key "enter") =
      (sampleModel, Cmd.openURL (menuUrls.getD sampleModel.Choice.toNat "")) ∧
    (sampleModel.Choice = 2 →
      sampleModel.Update (Msg.key "enter") =
        (sampleModel, Cmd.openURL LINKEDIN_URL)) :=
  activate_opens_url sampleModel (by decide) (by decide)

/-- Claim C6: the Update Engine is total (every model/event pair has a
defined result), and every input event other than resize,
navigate-down, navigate-up, activate and quit returns the model
unchanged with no side-effect command: both an unrecognized key string
and a message of any other kind fall through to `(m, Cmd.none)`. -/
theorem update_total_default (m : model) (s : String)
    (hq : s ≠ "q") (hc : s ≠ "ctrl+c") (hj : s ≠ "j") (hd : s ≠ "down")
    (hk : s ≠ "k") (hu : s ≠ "up") (he : s ≠ "enter") :
    (∀ msg : Msg, ∃ r : model × Cmd, m.Update msg = r) ∧
    m.Update (Msg.key s) = (m, Cmd.none) ∧
    m.Update Msg.other = (m, Cmd.none) := by
  refine ⟨fun msg => ⟨m.Update msg, rfl⟩, ?_, rfl⟩
  simp [model.Update, hq, hc, hj, hd, hk, hu, he]

/-- Witness for C6 at the unrecognized key string "x". -/
theorem update_total_default_witness :
    (∀ msg : Msg, ∃ r : model × Cmd, sampleModel.Update msg = r) ∧
    sampleModel.Update (Msg.key "x") = (sampleModel, Cmd.none) ∧
    sampleModel.Update Msg.other = (sampleModel, Cmd.none) :=
  update_total_default sampleModel "x" (by decide) (by decide) (by decide)
    (by decide) (by decide) (by decide) (by decide)

/-- Claim C10: no Update step ever changes `Chosen` or any of the six
style-binding fields — only `Width`, `Height` and `Choice` can change —
and `Chosen`, initialized to `false` by `teaHandler`, stays `false`
after every event sequence of the session. -/
theorem update_frame_conditions :
    (∀ (m : model) (msg : Msg),
      ((m.Update msg).1).Chosen = m.Chosen ∧
      ((m.Update msg).1).mainStyle = m.mainStyle ∧
      ((m.Update msg).1).aboutStyle = m.aboutStyle ∧
      ((m.Update msg).1).aboutNameStyle = m.aboutNameStyle ∧
      ((m.Update msg).1).checkboxStyle = m.checkboxStyle ∧
      ((m.Update msg).1).subtleStyle = m.subtleStyle ∧
      ((m.Update msg).1).dotStyle = m.dotStyle) ∧
    (∀ (width height : Int) (s1 s2 s3 s4 s5 s6 : Style) (msgs : List Msg),
      (runModel (teaHandler width height s1 s2 s3 s4 s5 s6) msgs).Chosen =
        false) := by
  have step : ∀ (m : model) (msg : Msg),
      ((m.Update msg).1).Chosen = m.Chosen ∧
      ((m.Update msg).1).mainStyle = m.mainStyle ∧
      ((m.Update msg).1).aboutStyle = m.aboutStyle ∧
      ((m.Update msg).1).aboutNameStyle = m.aboutNameStyle ∧
      ((m.Update msg).1).checkboxStyle = m.checkboxStyle ∧
      ((m.Update msg).1).subtleStyle = m.subtleStyle ∧
      ((m.Update msg).1).dotStyle = m.dotStyle := by
    intro m msg
    cases msg with
    | windowSize w h => simp [model.Update]
    | other => simp [model.Update]
    | key s =>
      simp only [model.Update]
      split_ifs <;> simp
  refine ⟨step, fun width height s1 s2 s3 s4 s5 s6 msgs => ?_⟩
  have run : ∀ (l : List Msg) (m : model), m.Chosen = false →
      (runModel m l).Chosen = false := by
    intro l
    induction l with
    | nil => intro m hm; exact hm
    | cons msg rest ih =>
      intro m hm
      exact ih _ ((step m msg).1.trans hm)
  exact run msgs _ rfl

/-- The Menu Entry labels, in entry order (src/main.go lines 177-180). -/
def menuLabels : List String := ["Resume / CV", "GitHub", "Linkedin", "Twitter"]

/-- Modelled from the spec (refinement side of C7): one line per Menu
Entry in entry order, where the line at the selected index is
`[x] <label>` in the checkbox-selected style and every other line is
`[ ] <label>` with no special style.  `j` is the index of the head
label. -/
def specMenuLinesAux (style : Style) (sel : Nat) :
    Nat → List String → List String
  | _, [] => []
  | j, label :: rest =>
    (if j = sel then style ("[x] " ++ label) else "[ ] " ++ label) ::
      specMenuLinesAux style sel (j + 1) rest

/-- Modelled from the spec (refinement side of C7): the full menu line
list for a given checkbox style and selected index. -/
def specMenuLines (style : Style) (sel : Nat) : List String :=
  specMenuLinesAux style sel 0 menuLabels

/-- Joining a list of lines with newline separators, as the `%s\n%s\n%s\n%s`
format string of src/main.go line 176 does for four lines. -/
def joinLines : List String → String
  | [] => ""
  | [l] => l
  | l :: rest => l ++ "\n" ++ joinLines rest

/-- Claim C7: for every model whose selected index is in [0, 3], the
rendered frame contains the four menu lines in fixed entry order, where
exactly the line at the selected index is `[x] <label>` in the
checkbox-selected style and every other line is `[ ] <label>` unstyled;
in particular at index 0 only the "Resume / CV" line is marked `[x]`. -/
theorem view_renders_menu_lines (m : model)
    (h0 : 0 ≤ m.Choice) (h3 : m.Choice ≤ 3) :
    choicesBlock m = joinLines (specMenuLines m.checkboxStyle m.Choice.toNat) ∧
    m.View = m.mainStyle
      ("\n" ++ aboutBlock m ++ "\n\n" ++
       joinLines (specMenuLines m.checkboxStyle m.Choice.toNat) ++ "\n\n" ++
       footerBlock m ++ "\n\n") ∧
    (m.Choice = 0 →
      specMenuLines m.checkboxStyle m.Choice.toNat =
        [m.checkboxStyle "[x] Resume / CV", "[ ] GitHub", "[ ] Linkedin",
         "[ ] Twitter"]) := by
  have hc : m.Choice = 0 ∨ m.Choice = 1 ∨ m.Choice = 2 ∨ m.Choice = 3 := by
    omega
  have hz0 : m.Choice = 0 →
      specMenuLines m.checkboxStyle m.Choice.toNat =
        [m.checkboxStyle "[x] Resume / CV", "[ ] GitHub", "[ ] Linkedin",
         "[ ] Twitter"] := by
    intro hz
    simp [specMenuLines, specMenuLinesAux, menuLabels, hz]
  rcases hc with h | h | h | h <;>
    refine ⟨?_, ?_, hz0⟩ <;>
    simp [model.View, choicesBlock, checkbox, specMenuLines,
      specMenuLinesAux, menuLabels, joinLines, h, String.append_assoc,
      -String.reduceAppend]

/-- Witness for C7 at the concrete model with `Choice = 2`. -/
theorem view_renders_menu_lines_witness :
    choicesBlock sampleModel =
      joinLines (specMenuLines sampleModel.checkboxStyle
        sampleModel.Choice.toNat) ∧
    sampleModel.View = sampleModel.mainStyle
      ("\n" ++ aboutBlock sampleModel ++ "\n\n" ++
       joinLines (specMenuLines sampleModel.checkboxStyle
         sampleModel.Choice.toNat) ++ "\n\n" ++
       footerBlock sampleModel ++ "\n\n") ∧
    (sampleModel.Choice = 0 →
      specMenuLines sampleModel.checkboxStyle sampleModel.Choice.toNat =
        [sampleModel.checkboxStyle "[x] Resume / CV", "[ ] GitHub",
         "[ ] Linkedin", "[ ] Twitter"]) :=
  view_renders_menu_lines sampleModel (by decide) (by decide)

/-- The observable trace of one session run: the final model, the frame
rendered after each step, and the dispatched side effects paired with the
outcome (success flag) the environment produced for them. -/
structure RunResult where
  final : model
  frames : List String
  effects : List (Cmd × Bool)

/-- One session run of the Program Loop over a list of input events:
each step invokes the Update Engine, dispatches the emitted command to
the environment — which yields the next outcome from `outcomes` — and
renders the new model.  The outcome is recorded in the effect log but,
exactly as `browser.OpenURL`'s return value is discarded in the Go code
(src/main.go lines 142-148), it is never handed back to the Update
Engine or the View Renderer. -/
def runSession (m : model) : List Msg → List Bool → RunResult
  | [], _ => ⟨m, [], []⟩
  | msg :: rest, outcomes =>
    let step := m.Update msg
    let r := runSession step.1 rest outcomes.tail
    ⟨r.final, step.1.View :: r.frames, (step.2, outcomes.headD true) :: r.effects⟩

/-- Claim C8: the outcome of the open-resource side effect is never
observed by the core — two runs of the same event sequence that differ
only in the effect outcomes produce the same final model and the same
sequence of rendered frames. -/
theorem effect_outcomes_unobserved (m : model) (msgs : List Msg)
    (outcomes1 outcomes2 : List Bool) :
    (runSession m msgs outcomes1).final = (runSession m msgs outcomes2).final ∧
    (runSession m msgs outcomes1).frames =
      (runSession m msgs outcomes2).frames := by
  induction msgs generalizing m outcomes1 outcomes2 with
  | nil => exact ⟨rfl, rfl⟩
  | cons msg rest ih =>
    obtain ⟨hf, hframes⟩ :=
      ih (m.Update msg).1 outcomes1.tail outcomes2.tail
    exact ⟨hf, by simp [runSession, hframes]⟩

/-- The initial model of a session whose PTY reported an 80×24 terminal,
with identity style handles. -/
def initSample : model := teaHandler 80 24 id id id id id id

/-- Counterexample to C9 as stated: from the initial model, a single
resize event reporting width −1 leaves the stored width negative — the
Update Engine stores reported dimensions as-is, with no clamping. -/
theorem geometry_can_go_negative :
    (runModel initSample [Msg.windowSize (-1) 24]).Width = -1 ∧
    ¬ (0 ≤ (runModel initSample [Msg.windowSize (-1) 24]).Width) := by
  exact ⟨rfl, by decide⟩

/-- An input event whose payload reports only non-negative geometry
(resize events carry non-negative width and height; every other event
carries no geometry). -/
def geomNonneg : Msg → Prop
  | Msg.windowSize w h => 0 ≤ w ∧ 0 ≤ h
  | _ => True

/-- Claim C9, amended: when the initially reported geometry is
non-negative and every resize event reports non-negative dimensions, the
stored width and height stay non-negative after every event sequence
(the Update Engine itself never makes them negative). -/
theorem geometry_nonneg_of_nonneg_reports (width height : Int)
    (s1 s2 s3 s4 s5 s6 : Style) (msgs : List Msg)
    (hw : 0 ≤ width) (hh : 0 ≤ height)
    (hmsgs : ∀ msg ∈ msgs, geomNonneg msg) :
    0 ≤ (runModel (teaHandler width height s1 s2 s3 s4 s5 s6) msgs).Width ∧
    0 ≤ (runModel (teaHandler width height s1 s2 s3 s4 s5 s6) msgs).Height := by
  have step : ∀ (m : model) (msg : Msg), geomNonneg msg →
      0 ≤ m.Width → 0 ≤ m.Height →
      0 ≤ ((m.Update msg).1).Width ∧ 0 ≤ ((m.Update msg).1).Height := by
    intro m msg hmsg hmw hmh
    cases msg with
    | windowSize w h => simpa [model.Update] using hmsg
    | other => simpa [model.Update] using ⟨hmw, hmh⟩
    | key s =>
      simp only [model.Update]
      split_ifs <;> simp_all
  have run : ∀ (l : List Msg) (m : model), (∀ msg ∈ l, geomNonneg msg) →
      0 ≤ m.Width → 0 ≤ m.Height →
      0 ≤ (runModel m l).Width ∧ 0 ≤ (runModel m l).Height := by
    intro l
    induction l with
    | nil => intro m _ hmw hmh; exact ⟨hmw, hmh⟩
    | cons msg rest ih =>
      intro m hl hmw hmh
      obtain ⟨hw1, hh1⟩ := step m msg (hl msg (by simp)) hmw hmh
      exact ih _ (fun x hx => hl x (by simp [hx])) hw1 hh1
  exact run msgs _ hmsgs (by simpa [teaHandler] using hw)
    (by simpa [teaHandler] using hh)

/-- Witness for the amended C9 at a concrete run: initial 80×24 geometry,
one resize to 40×24 followed by a navigation key. -/
theorem geometry_nonneg_witness :
    0 ≤ (runModel (teaHandler 80 24 id id id id id id)
          [Msg.windowSize 40 24, Msg.key "j"]).Width ∧
    0 ≤ (runModel (teaHandler 80 24 id id id id id id)
          [Msg.windowSize 40 24, Msg.key "j"]).Height :=
  geometry_nonneg_of_nonneg_reports 80 24 id id id id id id
    [Msg.windowSize 40 24, Msg.key "j"] (by decide) (by decide)
    (by intro msg hmsg
        fin_cases hmsg <;> simp [geomNonneg])

end SSHPortfolio
